import Mathlib

/-!
Shallow embedding of the Group Order Coordinator of the vendor-bridge-rasoi
repository (src/lib/firestore group-order operations and the group-order
logic of GroupOrderManager.tsx).

Modelling conventions:
* Timestamps (`Date`, `serverTimestamp`) are epoch milliseconds, `Int`.
* TS `number` fields holding money are `ℚ`; counts and quantities are `Int`.
* The document store is the list of GroupOrder documents of the
  `groupOrders` collection; `addDoc` appends with a caller-supplied fresh
  id, `getDoc` is `List.find?` on the id, `updateDoc` maps over the list
  replacing the matching document, and a `where`/`orderBy` query is a
  filter followed by a stable sort on the ordered field.
* The store itself never fails in the model, so the `StorageError` rethrow
  paths of the source (`catch (error) { throw error }`) are never taken;
  fallible operations return `Except CoordError _` to make the error
  behaviour of the source visible.
-/

/-- One entry of `GroupOrder.joinedVendors` (firestore.ts, lines 74-78). -/
structure Vendor where
  userId : String
  quantity : Int
  joinedAt : Int
deriving DecidableEq

/-- The `status` union type of `GroupOrder` (firestore.ts, line 80). -/
inductive GOStatus where
  | active
  | completed
  | expired
deriving DecidableEq

/-- The `GroupOrder` interface (firestore.ts, lines 66-82), with the
store-assigned `id` made mandatory since every stored document has one. -/
structure GroupOrder where
  id : String
  createdBy : String
  itemName : String
  category : String
  targetPrice : ℚ
  unit : String
  minVendors : Int
  joinedVendors : List Vendor
  deadline : Int
  status : GOStatus
  createdAt : Int
deriving DecidableEq

/-- The input of `createGroupOrder`: `Omit<GroupOrder, 'id' | 'createdAt'>`. -/
structure GroupOrderInput where
  createdBy : String
  itemName : String
  category : String
  targetPrice : ℚ
  unit : String
  minVendors : Int
  joinedVendors : List Vendor
  deadline : Int
  status : GOStatus
deriving DecidableEq

/-- The `groupOrders` collection of the document store. -/
structure Store where
  groupOrders : List GroupOrder
deriving DecidableEq

/-- The error kinds named by the specification's error-handling design. -/
inductive CoordError where
  | validationError
  | notFoundError
  | storageError
deriving DecidableEq

/-- The document written by `addDoc` in `createGroupOrder`:
`{...groupOrder, createdAt: serverTimestamp()}` plus the fresh id. -/
def mkGroupOrder (newId : String) (inp : GroupOrderInput) (now : Int) : GroupOrder :=
  { id := newId
    createdBy := inp.createdBy
    itemName := inp.itemName
    category := inp.category
    targetPrice := inp.targetPrice
    unit := inp.unit
    minVendors := inp.minVendors
    joinedVendors := inp.joinedVendors
    deadline := inp.deadline
    status := inp.status
    createdAt := now }

/-- `createGroupOrder` (firestore.ts, lines 284-295): appends the document
to the `groupOrders` collection and returns the new id.  The source
performs no check on the input; its only `throw` rethrows store failures,
which the model's store never produces. -/
def createGroupOrder (st : Store) (inp : GroupOrderInput) (newId : String) (now : Int) :
    Except CoordError (String × Store) :=
  Except.ok (newId, ⟨st.groupOrders ++ [mkGroupOrder newId inp now]⟩)

/-- The membership update computed inside `joinGroupOrder` (firestore.ts,
lines 304-317): find the existing vendor by user id; if present, map over
the list replacing that vendor's quantity, otherwise append a new entry
with `joinedAt = now`. -/
def updatedVendorsFor (vendors : List Vendor) (uid : String) (quantity now : Int) :
    List Vendor :=
  match vendors.find? (fun v => v.userId == uid) with
  | some _ => vendors.map (fun v => if v.userId == uid then { v with quantity := quantity } else v)
  | none => vendors ++ [{ userId := uid, quantity := quantity, joinedAt := now }]

/-- The store effect of `joinGroupOrder` (firestore.ts, lines 297-327):
`getDoc` the document; if it exists, `updateDoc` only the `joinedVendors`
field with the recomputed membership; if it does not exist, do nothing. -/
def joinGroupOrderStore (st : Store) (groupOrderId uid : String) (quantity now : Int) :
    Store :=
  match st.groupOrders.find? (fun g => g.id == groupOrderId) with
  | some _ =>
      ⟨st.groupOrders.map (fun g =>
        if g.id == groupOrderId then
          { g with joinedVendors := updatedVendorsFor g.joinedVendors uid quantity now }
        else g)⟩
  | none => st

/-- `joinGroupOrder` as seen by its caller: the source has no `throw` for a
missing document (the `if (docSnap.exists())` has no else branch), and its
`catch` only rethrows store failures, so in the model it always returns
`Except.ok`. -/
def joinGroupOrder (st : Store) (groupOrderId uid : String) (quantity now : Int) :
    Except CoordError Store :=
  Except.ok (joinGroupOrderStore st groupOrderId uid quantity now)

/-- Insertion of a document into a list sorted ascending by `deadline`;
models the store's `orderBy('deadline')`. -/
def insertByDeadline (g : GroupOrder) : List GroupOrder → List GroupOrder
  | [] => [g]
  | h :: t => if g.deadline ≤ h.deadline then g :: h :: t else h :: insertByDeadline g t

/-- Ascending sort by `deadline`, as performed by the store's
`orderBy('deadline')`. -/
def sortByDeadline (l : List GroupOrder) : List GroupOrder :=
  l.foldr insertByDeadline []

/-- `getActiveGroupOrders` (firestore.ts, lines 329-347): the query
`where('status','==','active')` then `orderBy('deadline')`; a pure read,
so the returned store is the input store. -/
def getActiveGroupOrders (st : Store) : List GroupOrder × Store :=
  (sortByDeadline (st.groupOrders.filter (fun g => g.status == GOStatus.active)), st)

/-- The group-order creation form state of GroupOrderManager.tsx (lines
35-58).  Each numeric/date field is represented by its parsed value, with
`none` standing for the empty string: the handler only ever tests these
strings for emptiness (`!formData.x`) and then converts them
(`parseFloat`, `parseInt`, `new Date`), so this representation captures
exactly the handler's observable use of them. -/
structure GroupOrderFormData where
  itemName : String
  category : String
  targetPrice : Option ℚ
  unit : String
  minVendors : Option Int
  deadline : Option Int
deriving DecidableEq

/-- Outcome shown to the user by a handler (`toast` variant). -/
inductive Toast where
  | success
  | errorToast
deriving DecidableEq

/-- `handleCreateGroupOrder` (GroupOrderManager.tsx, lines 92-138): if the
user is absent or any form field is empty, show an error toast and touch
nothing; otherwise build the group-order data with `status: 'active'` and
`joinedVendors = [{userId: user.uid, quantity: 1, joinedAt: now}]` and
persist it via `createGroupOrder`. -/
def handleCreateGroupOrder (user : Option String) (fd : GroupOrderFormData)
    (st : Store) (newId : String) (now : Int) : Toast × Store :=
  match user, fd.targetPrice, fd.minVendors, fd.deadline with
  | some uid, some tp, some mv, some dl =>
      if fd.itemName == "" || fd.category == "" || fd.unit == "" then
        (Toast.errorToast, st)
      else
        let inp : GroupOrderInput :=
          { createdBy := uid
            itemName := fd.itemName
            category := fd.category
            targetPrice := tp
            unit := fd.unit
            minVendors := mv
            joinedVendors := [{ userId := uid, quantity := 1, joinedAt := now }]
            deadline := dl
            status := GOStatus.active }
        match createGroupOrder st inp newId now with
        | Except.ok (_, st2) => (Toast.success, st2)
        | Except.error _ => (Toast.errorToast, st)
  | _, _, _, _ => (Toast.errorToast, st)

/-- The display value computed by `getTimeRemaining` (GroupOrderManager.tsx,
lines 159-178). -/
inductive TimeLeftDisplay where
  | expired
  | daysHours (d h : Nat)
  | hoursMinutes (h m : Nat)
  | minutesOnly (m : Nat)
deriving DecidableEq

/-- `getTimeRemaining` (GroupOrderManager.tsx, lines 159-178): expired when
`deadline - now <= 0`; otherwise days/hours/minutes by integer division of
the remaining milliseconds. -/
def getTimeRemaining (deadline now : Int) : TimeLeftDisplay :=
  let timeLeft := deadline - now
  if timeLeft ≤ 0 then
    TimeLeftDisplay.expired
  else
    let t := timeLeft.toNat
    let days := t / (1000 * 60 * 60 * 24)
    let hours := t % (1000 * 60 * 60 * 24) / (1000 * 60 * 60)
    let minutes := t % (1000 * 60 * 60) / (1000 * 60)
    if days > 0 then TimeLeftDisplay.daysHours days hours
    else if hours > 0 then TimeLeftDisplay.hoursMinutes hours minutes
    else TimeLeftDisplay.minutesOnly minutes

/-- `getProgressPercentage` (GroupOrderManager.tsx, lines 180-182). -/
def getProgressPercentage (joinedVendors minVendors : ℚ) : ℚ :=
  min (joinedVendors / minVendors * 100) 100

/-- Each user id appears at most once in a membership collection. -/
def uniqueMembers (vendors : List Vendor) : Prop :=
  vendors.Pairwise (fun a b => a.userId ≠ b.userId)

instance (vendors : List Vendor) : Decidable (uniqueMembers vendors) :=
  inferInstanceAs (Decidable (vendors.Pairwise _))

/-- All fields of a group-order document except `joinedVendors` agree. -/
def FrameEq (g g2 : GroupOrder) : Prop :=
  g2.id = g.id ∧ g2.createdBy = g.createdBy ∧ g2.itemName = g.itemName ∧
  g2.category = g.category ∧ g2.targetPrice = g.targetPrice ∧ g2.unit = g.unit ∧
  g2.minVendors = g.minVendors ∧ g2.deadline = g.deadline ∧
  g2.status = g.status ∧ g2.createdAt = g.createdAt

/-! ### Lemmas about the deadline sort -/

theorem insertByDeadline_perm (g : GroupOrder) (l : List GroupOrder) :
    List.Perm (insertByDeadline g l) (g :: l) := by
  induction l with
  | nil => exact List.Perm.refl _
  | cons h t ih =>
    simp only [insertByDeadline]
    split
    · exact List.Perm.refl _
    · exact (List.Perm.cons h ih).trans (List.Perm.swap g h t)

theorem insertByDeadline_pairwise (g : GroupOrder) (l : List GroupOrder)
    (hl : l.Pairwise (fun a b => a.deadline ≤ b.deadline)) :
    (insertByDeadline g l).Pairwise (fun a b => a.deadline ≤ b.deadline) := by
  induction l with
  | nil => simp [insertByDeadline]
  | cons h t ih =>
    rw [List.pairwise_cons] at hl
    simp only [insertByDeadline]
    split
    · rename_i hg
      refine List.Pairwise.cons ?_ (List.pairwise_cons.mpr hl)
      intro b hb
      rcases List.mem_cons.mp hb with rfl | hb
      · exact hg
      · exact le_trans hg (hl.1 b hb)
    · rename_i hg
      refine List.Pairwise.cons ?_ (ih hl.2)
      intro b hb
      rcases List.mem_cons.mp ((insertByDeadline_perm g t).mem_iff.mp hb) with rfl | hb
      · exact le_of_not_le hg
      · exact hl.1 b hb

theorem sortByDeadline_perm (l : List GroupOrder) :
    List.Perm (sortByDeadline l) l := by
  induction l with
  | nil => exact List.Perm.refl _
  | cons h t ih =>
    exact (insertByDeadline_perm h (sortByDeadline t)).trans (List.Perm.cons h ih)

theorem sortByDeadline_pairwise (l : List GroupOrder) :
    (sortByDeadline l).Pairwise (fun a b => a.deadline ≤ b.deadline) := by
  induction l with
  | nil => simp [sortByDeadline]
  | cons h t ih => exact insertByDeadline_pairwise h (sortByDeadline t) ih

/-! ### Claim theorems (first batch) -/

/-- C5: `listActiveGroupOrders` returns exactly the GroupOrders whose
status is `active` (a permutation of the active-filtered store, hence
membership-exact), sorted ascending by deadline, and performs no write to
the store. -/
theorem getActiveGroupOrders_spec (st : Store) :
    List.Perm (getActiveGroupOrders st).1
      (st.groupOrders.filter (fun g => g.status == GOStatus.active)) ∧
    (∀ g, g ∈ (getActiveGroupOrders st).1 ↔
      g ∈ st.groupOrders ∧ g.status = GOStatus.active) ∧
    (getActiveGroupOrders st).1.Pairwise (fun a b => a.deadline ≤ b.deadline) ∧
    (getActiveGroupOrders st).2 = st := by
  refine ⟨sortByDeadline_perm _, ?_, sortByDeadline_pairwise _, rfl⟩
  intro g
  show g ∈ sortByDeadline (st.groupOrders.filter (fun g => g.status == GOStatus.active)) ↔ _
  rw [(sortByDeadline_perm _).mem_iff, List.mem_filter]
  simp [beq_iff_eq]

/-- C7: `progressPercentage(memberCount, minVendors)` equals
`min(memberCount / minVendors * 100, 100)` and never exceeds 100. -/
theorem getProgressPercentage_spec (memberCount minVendors : ℚ)
    (_hm : 0 ≤ memberCount) (_hn : 1 ≤ minVendors) :
    getProgressPercentage memberCount minVendors
      = min (memberCount / minVendors * 100) 100 ∧
    getProgressPercentage memberCount minVendors ≤ 100 :=
  ⟨rfl, min_le_right _ _⟩

theorem getProgressPercentage_spec_witness :
    (0 : ℚ) ≤ 7 ∧ (1 : ℚ) ≤ 2 ∧
    (getProgressPercentage 7 2 = min (7 / 2 * 100) 100 ∧
      getProgressPercentage 7 2 ≤ 100) :=
  ⟨by norm_num, by norm_num,
    getProgressPercentage_spec 7 2 (by norm_num) (by norm_num)⟩

/-- C2 (amended): when the GroupOrder id does not exist, `joinGroupOrder`
signals no error at all: it returns successfully with the store unchanged
(the missing-document case is a silent no-op; `NotFoundError` is never
signalled). -/
theorem joinGroupOrder_missing_id_silent_noop (st : Store) (gid uid : String)
    (q now : Int) (h : st.groupOrders.find? (fun g => g.id == gid) = none) :
    joinGroupOrder st gid uid q now = Except.ok st := by
  simp [joinGroupOrder, joinGroupOrderStore, h]

theorem joinGroupOrder_missing_id_silent_noop_witness :
    joinGroupOrder ⟨[]⟩ "g1" "u1" 1 0 = Except.ok ⟨[]⟩ :=
  joinGroupOrder_missing_id_silent_noop ⟨[]⟩ "g1" "u1" 1 0 rfl

/-- C2 counterexample: with the empty store, id "g1" does not reference an
existing GroupOrder, yet `joinGroupOrder` does not signal `NotFoundError`
(or any error): it returns `ok` with the store unchanged. -/
theorem joinGroupOrder_missing_id_cex :
    joinGroupOrder ⟨[]⟩ "g1" "u1" 1 0 ≠ Except.error CoordError.notFoundError ∧
    joinGroupOrder ⟨[]⟩ "g1" "u1" 1 0 = Except.ok ⟨[]⟩ :=
  ⟨by simp [joinGroupOrder], rfl⟩

/-- Concrete invalid creation input: `minVendors = 1 < 2` and a deadline
(0) that is not strictly after the call time used below (100). -/
def invalidInp : GroupOrderInput :=
  { createdBy := "u1"
    itemName := "rice"
    category := "grains"
    targetPrice := 10
    unit := "kg"
    minVendors := 1
    joinedVendors := [{ userId := "u1", quantity := 1, joinedAt := 0 }]
    deadline := 0
    status := GOStatus.active }

/-- C3 (amended): `createGroupOrder` performs no precondition validation:
even when `minVendors < 2` or the deadline is not strictly after the
current time, it signals no `ValidationError` and persists the order. -/
theorem createGroupOrder_accepts_invalid (st : Store) (inp : GroupOrderInput)
    (newId : String) (now : Int)
    (_h : inp.minVendors < 2 ∨ inp.deadline ≤ now) :
    createGroupOrder st inp newId now
      = Except.ok (newId, ⟨st.groupOrders ++ [mkGroupOrder newId inp now]⟩) := rfl

theorem createGroupOrder_accepts_invalid_witness :
    (invalidInp.minVendors < 2 ∨ invalidInp.deadline ≤ 100) ∧
    createGroupOrder ⟨[]⟩ invalidInp "g1" 100
      = Except.ok ("g1", ⟨[mkGroupOrder "g1" invalidInp 100]⟩) :=
  ⟨Or.inl (by decide),
    createGroupOrder_accepts_invalid ⟨[]⟩ invalidInp "g1" 100 (Or.inl (by decide))⟩

/-- C3 counterexample: with `minVendors = 1` and deadline 0 at time 100,
`createGroupOrder` persists the order and signals no `ValidationError`. -/
theorem createGroupOrder_no_validation_cex :
    createGroupOrder ⟨[]⟩ invalidInp "g1" 100 ≠ Except.error CoordError.validationError ∧
    createGroupOrder ⟨[]⟩ invalidInp "g1" 100
      = Except.ok ("g1", ⟨[mkGroupOrder "g1" invalidInp 100]⟩) :=
  ⟨by simp [createGroupOrder], rfl⟩

/-! ### Lemmas about the membership update -/

theorem updateQuantity_userId (a : Vendor) (uid : String) (q : Int) :
    ((if a.userId == uid then { a with quantity := q } else a) : Vendor).userId
      = a.userId := by
  by_cases ha : a.userId = uid <;> simp [ha]

theorem updatedVendorsFor_mem_self (vs : List Vendor) (uid : String) (q now : Int) :
    ∃ v ∈ updatedVendorsFor vs uid q now, v.userId = uid ∧ v.quantity = q := by
  unfold updatedVendorsFor
  cases hf : vs.find? (fun v => v.userId == uid) with
  | none => exact ⟨⟨uid, q, now⟩, by simp, rfl, rfl⟩
  | some w =>
    have hw : w ∈ vs := List.mem_of_find?_eq_some hf
    have hwid : w.userId = uid := by
      have h2 := List.find?_some hf
      simpa using h2
    refine ⟨{ w with quantity := q }, ?_, hwid, rfl⟩
    exact List.mem_map.mpr ⟨w, hw, by simp [hwid]⟩

theorem updatedVendorsFor_quantity (vs : List Vendor) (uid : String) (q now : Int) :
    ∀ v ∈ updatedVendorsFor vs uid q now, v.userId = uid → v.quantity = q := by
  unfold updatedVendorsFor
  cases hf : vs.find? (fun v => v.userId == uid) with
  | none =>
    intro v hv hvid
    rcases List.mem_append.mp hv with hv | hv
    · have h2 := List.find?_eq_none.mp hf v hv
      simp [hvid] at h2
    · rcases List.mem_singleton.mp hv with rfl
      rfl
  | some w =>
    intro v hv hvid
    rcases List.mem_map.mp hv with ⟨u, _, rfl⟩
    by_cases hu : u.userId = uid
    · simp [hu]
    · simp [hu] at hvid

theorem updatedVendorsFor_unique (vs : List Vendor) (uid : String) (q now : Int)
    (h : uniqueMembers vs) : uniqueMembers (updatedVendorsFor vs uid q now) := by
  unfold updatedVendorsFor uniqueMembers
  cases hf : vs.find? (fun v => v.userId == uid) with
  | none =>
    rw [List.pairwise_append]
    refine ⟨h, List.pairwise_singleton _ _, ?_⟩
    intro a ha b hb
    rcases List.mem_singleton.mp hb with rfl
    simpa using List.find?_eq_none.mp hf a ha
  | some w =>
    rw [List.pairwise_map]
    refine h.imp ?_
    intro a b hab
    simpa only [updateQuantity_userId] using hab

theorem uniqueMembers_filter_le_one (vs : List Vendor) (h : uniqueMembers vs)
    (uid : String) : (vs.filter (fun v => v.userId == uid)).length ≤ 1 := by
  induction vs with
  | nil => simp
  | cons a t ih =>
    rw [uniqueMembers, List.pairwise_cons] at h
    by_cases ha : a.userId = uid
    · have hnil : t.filter (fun v => v.userId == uid) = [] := by
        rw [List.filter_eq_nil_iff]
        intro v hv
        simp only [beq_iff_eq]
        intro hv2
        exact h.1 v hv (by rw [ha, hv2])
      simp [List.filter_cons, ha, hnil]
    · simpa [List.filter_cons, ha] using ih h.2

theorem updatedVendorsFor_filter_length (vs : List Vendor) (uid : String)
    (q now : Int) (h : uniqueMembers vs) :
    ((updatedVendorsFor vs uid q now).filter (fun v => v.userId == uid)).length = 1 := by
  have h1 := uniqueMembers_filter_le_one _ (updatedVendorsFor_unique vs uid q now h) uid
  obtain ⟨v, hv, hvid, _⟩ := updatedVendorsFor_mem_self vs uid q now
  have h2 : v ∈ (updatedVendorsFor vs uid q now).filter (fun v => v.userId == uid) :=
    List.mem_filter.mpr ⟨hv, by simp [hvid]⟩
  have h3 := List.length_pos_of_mem h2
  omega

/-! ### Lemmas tracing documents through the join -/

theorem joinGroupOrderStore_mem (st : Store) (gid uid : String) (q now : Int)
    (g2 : GroupOrder)
    (hg2 : g2 ∈ (joinGroupOrderStore st gid uid q now).groupOrders) :
    ∃ g ∈ st.groupOrders, g2 = g ∨
      g2 = { g with joinedVendors := updatedVendorsFor g.joinedVendors uid q now } := by
  unfold joinGroupOrderStore at hg2
  cases hf : st.groupOrders.find? (fun x => x.id == gid) with
  | none =>
    rw [hf] at hg2
    exact ⟨g2, hg2, Or.inl rfl⟩
  | some w =>
    rw [hf] at hg2
    rcases List.mem_map.mp hg2 with ⟨g, hg, hfg⟩
    refine ⟨g, hg, ?_⟩
    by_cases hid : g.id = gid
    · right
      rw [← hfg, if_pos (by simpa using hid)]
    · left
      rw [← hfg, if_neg (by simpa using hid)]

theorem joinGroupOrderStore_mem_id (st : Store) (gid uid : String) (q now : Int)
    (g2 : GroupOrder)
    (hg2 : g2 ∈ (joinGroupOrderStore st gid uid q now).groupOrders)
    (hid : g2.id = gid) :
    ∃ g ∈ st.groupOrders, g.id = gid ∧
      g2.joinedVendors = updatedVendorsFor g.joinedVendors uid q now := by
  unfold joinGroupOrderStore at hg2
  cases hf : st.groupOrders.find? (fun x => x.id == gid) with
  | none =>
    rw [hf] at hg2
    exact absurd (by simpa using hid) (by simpa using List.find?_eq_none.mp hf g2 hg2)
  | some w =>
    rw [hf] at hg2
    rcases List.mem_map.mp hg2 with ⟨g, hg, hfg⟩
    by_cases hgid : g.id = gid
    · refine ⟨g, hg, hgid, ?_⟩
      rw [← hfg, if_pos (by simpa using hgid)]
    · rw [← hfg, if_neg (by simpa using hgid)] at hid
      exact absurd hid hgid

theorem joinGroupOrderStore_unique (st : Store) (gid uid : String) (q now : Int)
    (h : ∀ g ∈ st.groupOrders, uniqueMembers g.joinedVendors) :
    ∀ g ∈ (joinGroupOrderStore st gid uid q now).groupOrders,
      uniqueMembers g.joinedVendors := by
  intro g2 hg2
  rcases joinGroupOrderStore_mem st gid uid q now g2 hg2 with ⟨g, hg, heq | heq⟩
  · rw [heq]
    exact h g hg
  · rw [heq]
    exact updatedVendorsFor_unique _ uid q now (h g hg)

/-! ### Claim theorems (second batch) -/

/-- C9: `joinGroupOrder` performs the membership upsert unconditionally for
every existing GroupOrder: the theorem places no hypothesis on the order's
`status`, on its `deadline` relative to `now`, or on the sign of
`quantity` — the call succeeds (returns `ok`, updating only
`joinedVendors`) and the stored membership contains an entry for `uid`
whose quantity is exactly the given `quantity`, even for a `completed` or
`expired` order, a passed deadline, or a zero/negative quantity. -/
theorem joinGroupOrder_unconditional_upsert (st : Store) (gid uid : String)
    (q now : Int) (g : GroupOrder)
    (hfind : st.groupOrders.find? (fun x => x.id == gid) = some g) :
    joinGroupOrder st gid uid q now =
      Except.ok ⟨st.groupOrders.map (fun x =>
        if x.id == gid then
          { x with joinedVendors := updatedVendorsFor x.joinedVendors uid q now }
        else x)⟩ ∧
    ∃ v ∈ updatedVendorsFor g.joinedVendors uid q now,
      v.userId = uid ∧ v.quantity = q := by
  constructor
  · unfold joinGroupOrder joinGroupOrderStore
    rw [hfind]
  · exact updatedVendorsFor_mem_self g.joinedVendors uid q now

/-- Concrete expired order used to witness the unconditional upsert: status
`expired`, deadline 50 already passed at call time 100, and a negative
quantity. -/
def expiredOrder : GroupOrder :=
  { id := "g1"
    createdBy := "u1"
    itemName := "rice"
    category := "grains"
    targetPrice := 10
    unit := "kg"
    minVendors := 3
    joinedVendors := [{ userId := "u1", quantity := 1, joinedAt := 0 }]
    deadline := 50
    status := GOStatus.expired
    createdAt := 0 }

theorem joinGroupOrder_unconditional_upsert_witness :
    joinGroupOrder ⟨[expiredOrder]⟩ "g1" "u2" (-4) 100 =
      Except.ok ⟨[expiredOrder].map (fun x =>
        if x.id == "g1" then
          { x with joinedVendors := updatedVendorsFor x.joinedVendors "u2" (-4) 100 }
        else x)⟩ ∧
    ∃ v ∈ updatedVendorsFor expiredOrder.joinedVendors "u2" (-4) 100,
      v.userId = "u2" ∧ v.quantity = -4 :=
  joinGroupOrder_unconditional_upsert ⟨[expiredOrder]⟩ "g1" "u2" (-4) 100
    expiredOrder rfl

/-- C10: a join by a user not yet present appends the new entry at the end
of the membership list, leaving every existing entry and the order of the
list intact; a re-join by a present user relates old and new lists
pointwise (same positions): every entry keeps its user id and `joinedAt`,
entries of other users are unchanged, and the re-joining user's entry gets
the new quantity. -/
theorem updatedVendorsFor_frame (vendors : List Vendor) (uid : String)
    (q now : Int) :
    (vendors.find? (fun v => v.userId == uid) = none →
      updatedVendorsFor vendors uid q now
        = vendors ++ [{ userId := uid, quantity := q, joinedAt := now }]) ∧
    ((vendors.find? (fun v => v.userId == uid)).isSome →
      List.Forall₂ (fun v v2 =>
        v2.userId = v.userId ∧ v2.joinedAt = v.joinedAt ∧
        (v.userId = uid → v2.quantity = q) ∧
        (v.userId ≠ uid → v2 = v)) vendors (updatedVendorsFor vendors uid q now)) := by
  constructor
  · intro h
    unfold updatedVendorsFor
    rw [h]
  · intro h
    rcases Option.isSome_iff_exists.mp h with ⟨w, hw⟩
    unfold updatedVendorsFor
    rw [hw, List.forall₂_map_right_iff, List.forall₂_same]
    intro v _
    by_cases hv : v.userId = uid
    · simp [hv]
    · simp [hv]

theorem updatedVendorsFor_frame_witness :
    updatedVendorsFor [⟨"u1", 1, 0⟩] "u2" 2 5
      = [⟨"u1", 1, 0⟩] ++ [{ userId := "u2", quantity := 2, joinedAt := 5 }] ∧
    List.Forall₂ (fun v v2 =>
        v2.userId = v.userId ∧ v2.joinedAt = v.joinedAt ∧
        (v.userId = "u2" → v2.quantity = 7) ∧
        (v.userId ≠ "u2" → v2 = v))
      [⟨"u1", 1, 0⟩, ⟨"u2", 2, 5⟩]
      (updatedVendorsFor [⟨"u1", 1, 0⟩, ⟨"u2", 2, 5⟩] "u2" 7 9) :=
  ⟨(updatedVendorsFor_frame [⟨"u1", 1, 0⟩] "u2" 2 5).1 rfl,
    (updatedVendorsFor_frame [⟨"u1", 1, 0⟩, ⟨"u2", 2, 5⟩] "u2" 7 9).2 rfl⟩

/-- C1: in a store where every GroupOrder's membership holds each user id
at most once, any `joinGroupOrder` call preserves that uniqueness; and
after two successive `joinGroupOrder` calls with the same user id, every
GroupOrder carrying the joined id has exactly one membership entry for
that user, whose quantity is the second (most recent) call's value — the
entry is replaced, not added. -/
theorem joinGroupOrder_unique_replace (st : Store) (gid uid : String)
    (q1 q2 now1 now2 : Int)
    (h : ∀ g ∈ st.groupOrders, uniqueMembers g.joinedVendors) :
    (∀ g ∈ (joinGroupOrderStore st gid uid q1 now1).groupOrders,
      uniqueMembers g.joinedVendors) ∧
    (∀ g ∈ (joinGroupOrderStore (joinGroupOrderStore st gid uid q1 now1)
        gid uid q2 now2).groupOrders,
      g.id = gid →
        (g.joinedVendors.filter (fun v => v.userId == uid)).length = 1 ∧
        ∀ v ∈ g.joinedVendors, v.userId = uid → v.quantity = q2) := by
  have h1 := joinGroupOrderStore_unique st gid uid q1 now1 h
  refine ⟨h1, ?_⟩
  intro g hg hid
  obtain ⟨g1, hg1, _, hvend⟩ :=
    joinGroupOrderStore_mem_id _ gid uid q2 now2 g hg hid
  have hu1 : uniqueMembers g1.joinedVendors := h1 g1 hg1
  rw [hvend]
  exact ⟨updatedVendorsFor_filter_length _ uid q2 now2 hu1,
    updatedVendorsFor_quantity _ uid q2 now2⟩

/-- Concrete one-order store with a unique membership, used as witness
input for the join-uniqueness theorem. -/
def demoStore : Store :=
  ⟨[{ id := "g1"
      createdBy := "u1"
      itemName := "rice"
      category := "grains"
      targetPrice := 10
      unit := "kg"
      minVendors := 3
      joinedVendors := [{ userId := "u1", quantity := 1, joinedAt := 0 }]
      deadline := 1000
      status := GOStatus.active
      createdAt := 0 }]⟩

theorem joinGroupOrder_unique_replace_witness :
    (∀ g ∈ (joinGroupOrderStore demoStore "g1" "u2" 3 10).groupOrders,
      uniqueMembers g.joinedVendors) ∧
    (∀ g ∈ (joinGroupOrderStore (joinGroupOrderStore demoStore "g1" "u2" 3 10)
        "g1" "u2" 5 20).groupOrders,
      g.id = "g1" →
        (g.joinedVendors.filter (fun v => v.userId == "u2")).length = 1 ∧
        ∀ v ∈ g.joinedVendors, v.userId = "u2" → v.quantity = 5) :=
  joinGroupOrder_unique_replace demoStore "g1" "u2" 3 5 10 20 (by decide)

/-- C6: no coordinator operation changes a GroupOrder's status after
creation: the join rewrites only `joinedVendors` (id, createdBy, itemName,
category, targetPrice, unit, minVendors, deadline, status and createdAt
are unchanged, position by position), the listing writes nothing, and the
creation handler either leaves the store unchanged or appends one new
order with status `active` while leaving every existing document intact —
so the `active → completed` and `active → expired` transitions are never
performed in storage and no backward transition can occur. -/
theorem coordinator_status_frame (st : Store) (gid uid : String) (q now : Int)
    (user : Option String) (fd : GroupOrderFormData) (newId : String)
    (now2 : Int) :
    List.Forall₂ FrameEq st.groupOrders
      (joinGroupOrderStore st gid uid q now).groupOrders ∧
    (getActiveGroupOrders st).2 = st ∧
    ((handleCreateGroupOrder user fd st newId now2).2 = st ∨
      ∃ g, (handleCreateGroupOrder user fd st newId now2).2.groupOrders
          = st.groupOrders ++ [g] ∧ g.status = GOStatus.active) := by
  refine ⟨?_, rfl, ?_⟩
  · unfold joinGroupOrderStore
    cases hf : st.groupOrders.find? (fun x => x.id == gid) with
    | none =>
      exact List.forall₂_same.mpr
        (fun g _ => ⟨rfl, rfl, rfl, rfl, rfl, rfl, rfl, rfl, rfl, rfl⟩)
    | some w =>
      rw [List.forall₂_map_right_iff]
      refine List.forall₂_same.mpr ?_
      intro g _
      by_cases hid : g.id = gid
      · simp only [if_pos (show (g.id == gid) = true by simpa using hid)]
        exact ⟨rfl, rfl, rfl, rfl, rfl, rfl, rfl, rfl, rfl, rfl⟩
      · simp only [if_neg (show ¬ (g.id == gid) = true by simpa using hid)]
        exact ⟨rfl, rfl, rfl, rfl, rfl, rfl, rfl, rfl, rfl, rfl⟩
  · unfold handleCreateGroupOrder
    rcases user with _ | uid
    · exact Or.inl rfl
    rcases fd.targetPrice with _ | tp
    · exact Or.inl rfl
    rcases fd.minVendors with _ | mv
    · exact Or.inl rfl
    rcases fd.deadline with _ | dl
    · exact Or.inl rfl
    simp only []
    by_cases hcond : (fd.itemName == "" || fd.category == "" || fd.unit == "") = true
    · rw [if_pos hcond]
      exact Or.inl rfl
    · rw [if_neg hcond]
      exact Or.inr ⟨_, rfl, rfl⟩

/-- C8: `getTimeRemaining` returns the expired indicator exactly when
`now ≥ deadline`; for every `now` strictly before `deadline` it returns a
non-expired duration: days+hours when at least one day (86 400 000 ms)
remains, hours+minutes when at least one hour but less than one day
remains, and minutes only otherwise. -/
theorem getTimeRemaining_spec (deadline now : Int) :
    (getTimeRemaining deadline now = TimeLeftDisplay.expired ↔ deadline ≤ now) ∧
    (now < deadline →
      getTimeRemaining deadline now =
        if 1000 * 60 * 60 * 24 ≤ (deadline - now).toNat then
          TimeLeftDisplay.daysHours ((deadline - now).toNat / (1000 * 60 * 60 * 24))
            ((deadline - now).toNat % (1000 * 60 * 60 * 24) / (1000 * 60 * 60))
        else if 1000 * 60 * 60 ≤ (deadline - now).toNat then
          TimeLeftDisplay.hoursMinutes ((deadline - now).toNat / (1000 * 60 * 60))
            ((deadline - now).toNat % (1000 * 60 * 60) / (1000 * 60))
        else
          TimeLeftDisplay.minutesOnly ((deadline - now).toNat / (1000 * 60))) := by
  constructor
  · constructor
    · intro hc
      by_contra hnot
      push_neg at hnot
      have hpos : ¬ (deadline - now ≤ 0) := by omega
      simp only [getTimeRemaining] at hc
      rw [if_neg hpos] at hc
      split at hc
      · exact TimeLeftDisplay.noConfusion hc
      · split at hc
        · exact TimeLeftDisplay.noConfusion hc
        · exact TimeLeftDisplay.noConfusion hc
    · intro hle
      simp only [getTimeRemaining]
      rw [if_pos (by omega : deadline - now ≤ 0)]
  · intro hlt
    simp only [getTimeRemaining]
    rw [if_neg (by omega : ¬ (deadline - now ≤ 0))]
    set t := (deadline - now).toNat with ht
    by_cases hD : 1000 * 60 * 60 * 24 ≤ t
    · rw [if_pos (show t / (1000 * 60 * 60 * 24) > 0 from
          Nat.div_pos hD (by norm_num)), if_pos hD]
    · have htD : t < 1000 * 60 * 60 * 24 := by omega
      rw [if_neg (show ¬ t / (1000 * 60 * 60 * 24) > 0 by
            simp [Nat.div_eq_of_lt htD]),
          if_neg hD, Nat.mod_eq_of_lt htD]
      by_cases hH : 1000 * 60 * 60 ≤ t
      · rw [if_pos (show t / (1000 * 60 * 60) > 0 from
            Nat.div_pos hH (by norm_num)), if_pos hH]
      · have htH : t < 1000 * 60 * 60 := by omega
        rw [if_neg (show ¬ t / (1000 * 60 * 60) > 0 by
              simp [Nat.div_eq_of_lt htH]),
            if_neg hH, Nat.mod_eq_of_lt htH]

theorem getTimeRemaining_spec_witness :
    getTimeRemaining 90060000 0 = TimeLeftDisplay.daysHours 1 1 ∧
    getTimeRemaining 5 5 = TimeLeftDisplay.expired := by
  constructor
  · have h := (getTimeRemaining_spec 90060000 0).2 (by norm_num)
    rw [h]
    decide
  · exact (getTimeRemaining_spec 5 5).1.mpr (by norm_num)

/-- C4: for every valid creation input — user present, all form fields
non-empty, `targetPrice > 0`, `minVendors ≥ 2`, deadline strictly in the
future — the creation handler persists via `createGroupOrder` a GroupOrder
whose `status` is `active` and whose membership is exactly one entry: the
creator's user id at quantity 1. -/
theorem handleCreateGroupOrder_valid (uid : String) (fd : GroupOrderFormData)
    (st : Store) (newId : String) (now : Int) (tp : ℚ) (mv dl : Int)
    (htp : fd.targetPrice = some tp) (hmv : fd.minVendors = some mv)
    (hdl : fd.deadline = some dl)
    (hitem : fd.itemName ≠ "") (hcat : fd.category ≠ "") (hunit : fd.unit ≠ "")
    (_htp0 : 0 < tp) (_hmv2 : 2 ≤ mv) (_hfut : now < dl) :
    handleCreateGroupOrder (some uid) fd st newId now
      = (Toast.success, ⟨st.groupOrders ++
          [{ id := newId
             createdBy := uid
             itemName := fd.itemName
             category := fd.category
             targetPrice := tp
             unit := fd.unit
             minVendors := mv
             joinedVendors := [{ userId := uid, quantity := 1, joinedAt := now }]
             deadline := dl
             status := GOStatus.active
             createdAt := now }]⟩) := by
  unfold handleCreateGroupOrder
  rw [htp, hmv, hdl]
  simp only []
  rw [if_neg (by simp [hitem, hcat, hunit])]
  rfl

/-- Concrete valid form data used to witness the valid-creation theorem. -/
def validFd : GroupOrderFormData :=
  { itemName := "rice"
    category := "grains"
    targetPrice := some 10
    unit := "kg"
    minVendors := some 3
    deadline := some 1000 }

theorem handleCreateGroupOrder_valid_witness :
    handleCreateGroupOrder (some "u1") validFd ⟨[]⟩ "g1" 5
      = (Toast.success, ⟨[] ++
          [{ id := "g1"
             createdBy := "u1"
             itemName := "rice"
             category := "grains"
             targetPrice := 10
             unit := "kg"
             minVendors := 3
             joinedVendors := [{ userId := "u1", quantity := 1, joinedAt := 5 }]
             deadline := 1000
             status := GOStatus.active
             createdAt := 5 }]⟩) :=
  handleCreateGroupOrder_valid "u1" validFd ⟨[]⟩ "g1" 5 10 3 1000 rfl rfl rfl
    (by decide) (by decide) (by decide) (by norm_num) (by decide) (by decide)
